import Mathlib

/-!
Verification of the distributed global identifier and credit-based
reference-counting core (`src/runtime/naming/name.cpp`).

The raw identifier (`gid_type`) is a 128-bit value split into two 64-bit
halves `id_msb_` / `id_lsb_`.  The credit codec packs, inside the msb:
bits 24..28 the base-2 logarithm of the current credit, bit 29 the
embedded spinlock, bit 30 the has-credit flag and bit 31 the was-split
flag (bits 88..95 of the full 128-bit id, as documented in the garbage
collection commentary at the top of `name.cpp`).

Machine integers are modelled as `Nat` with explicit reduction
modulo `2 ^ 64` wherever overflow can occur.
-/

set_option maxRecDepth 10000

namespace HpxNaming

/-- Raw 128-bit global identifier: two 64-bit halves, as in `gid_type`. -/
structure gid_type where
  id_msb : Nat
  id_lsb : Nat
deriving DecidableEq, Repr

/-- Modelled from the spec: the credit field (log-base-2 of the credit) is
stored in bits 88..92 of the identifier, i.e. bits 24..28 of the msb
(`name.cpp` commentary; `gid_type::credit_shift` is missing from the
sources, only `name.cpp` is available). -/
def credit_shift : Nat := 24

/-- Modelled from the spec: the log2-credit field is at most 5 bits wide. -/
def credit_base_mask : Nat := 0x1f

/-- Mask of the log2-credit field inside the msb (bits 24..28). -/
def credit_mask : Nat := 0x1f000000

/-- Modelled from the spec: bit 93 of the identifier (msb bit 29) is the
embedded spinlock bit (`gid_type::is_locked_mask`). -/
def is_locked_mask : Nat := 0x20000000

/-- Modelled from the spec: bit 94 of the identifier (msb bit 30) is set
whenever the credit field is valid (`gid_type::has_credits_mask`). -/
def has_credits_mask : Nat := 0x40000000

/-- Modelled from the spec: bit 95 of the identifier (msb bit 31) records
that the id has been split at some time (`gid_type::was_split_mask`). -/
def was_split_mask : Nat := 0x80000000

/-- Union of the credit field and the two credit flags; cleared by
`strip_credits_from_gid`. -/
def credit_bits_mask : Nat := 0xdf000000

/-- Bitwise complement on 64-bit words (the C++ `~mask` on `uint64_t`). -/
def not64 (m : Nat) : Nat := (2 ^ 64 - 1) ^^^ m

/-- The invalid identifier `{0, 0}`. -/
def invalid_gid : gid_type := ⟨0, 0⟩

/-- Modelled from the spec: the initial credit `C0` attached to a freshly
allocated target (`HPX_GLOBALCREDIT_INITIAL`, a fixed power of two; the
spec's example value `2^16`). -/
def HPX_GLOBALCREDIT_INITIAL : Nat := 0x10000

/-- Modelled from the spec: `has_credits` tests msb bit 30. -/
def has_credits (g : gid_type) : Bool :=
  g.id_msb &&& has_credits_mask ≠ 0

/-- Modelled from the spec: `gid_was_split` tests msb bit 31. -/
def gid_was_split (g : gid_type) : Bool :=
  g.id_msb &&& was_split_mask ≠ 0

/-- Modelled from the spec: the spinlock bit (msb bit 29). -/
def is_locked (g : gid_type) : Bool :=
  g.id_msb &&& is_locked_mask ≠ 0

/-- Modelled from the spec: extract the log2-credit field (msb bits 24..28). -/
def get_log2credit_from_gid (g : gid_type) : Nat :=
  (g.id_msb >>> credit_shift) &&& credit_base_mask

/-- Modelled from the spec: the credit of an identifier is
`1 <<< log2_credit` when `has_credits` is set, and `0` otherwise. -/
def get_credit_from_gid (g : gid_type) : Nat :=
  if has_credits g then 1 <<< get_log2credit_from_gid g else 0

/-- Modelled from the spec: store a log2-credit value into msb bits 24..28
and set the has-credit flag. -/
def set_log2credit_for_gid (g : gid_type) (k : Nat) : gid_type :=
  ⟨g.id_msb &&& not64 credit_mask |||
      (k <<< credit_shift) &&& credit_mask ||| has_credits_mask,
    g.id_lsb⟩

/-- Modelled from the spec: the floor of the base-2 logarithm, computed by
repeated halving as in the C++ `detail::log2` loop (fuel-bounded structural
recursion; 64 iterations suffice for any 64-bit value). -/
def floor_log2_aux : Nat → Nat → Nat
  | 0, _ => 0
  | fuel + 1, n => if 2 ≤ n then floor_log2_aux fuel (n / 2) + 1 else 0

/-- Floor of the base-2 logarithm of a 64-bit value. -/
def floor_log2 (n : Nat) : Nat := floor_log2_aux 64 n

/-- Modelled from the spec: `set_credit_for_gid` stores the floor of the
base-2 logarithm of a non-zero credit, and strips the credit bits when the
credit is zero. -/
def set_credit_for_gid (g : gid_type) (c : Nat) : gid_type :=
  if c ≠ 0 then set_log2credit_for_gid g (floor_log2 c)
  else ⟨g.id_msb &&& not64 credit_bits_mask, g.id_lsb⟩

/-- Modelled from the spec: mark the identifier as having been split
(set msb bit 31). -/
def set_credit_split_mask_for_gid (g : gid_type) : gid_type :=
  ⟨g.id_msb ||| was_split_mask, g.id_lsb⟩

/-- Modelled from the spec: `strip_credits_from_gid` clears the credit
field together with the has-credit and was-split flags. -/
def strip_credits_from_gid (g : gid_type) : gid_type :=
  ⟨g.id_msb &&& not64 credit_bits_mask, g.id_lsb⟩

/-- The `gid_type` copy constructor strips the lock bit
(`gid_type new_gid = gid;  // strips lock-bit` throughout `name.cpp`). -/
def strip_lock_bit (g : gid_type) : gid_type :=
  ⟨g.id_msb &&& not64 is_locked_mask, g.id_lsb⟩

/-- Acquiring the embedded spinlock sets msb bit 29. -/
def acquire_lock (g : gid_type) : gid_type :=
  ⟨g.id_msb ||| is_locked_mask, g.id_lsb⟩

/-- Releasing the embedded spinlock clears msb bit 29. -/
def release_lock (g : gid_type) : gid_type :=
  strip_lock_bit g

/-! ### Mask normal forms -/

theorem credit_mask_eq : credit_mask = (2 ^ 5 - 1) <<< 24 := by decide

theorem credit_base_mask_eq : credit_base_mask = 2 ^ 5 - 1 := by decide

theorem is_locked_mask_eq : is_locked_mask = 2 ^ 29 := by decide

theorem has_credits_mask_eq : has_credits_mask = 2 ^ 30 := by decide

theorem was_split_mask_eq : was_split_mask = 2 ^ 31 := by decide

theorem credit_bits_mask_eq :
    credit_bits_mask = (2 ^ 5 - 1) <<< 24 ||| 2 ^ 30 ||| 2 ^ 31 := by decide

theorem testBit_not64 (m : Nat) (i : Nat) (hm64 : m < 2 ^ 64) :
    (not64 m).testBit i = (decide (i < 64) && !(m.testBit i)) := by
  simp only [not64, Nat.testBit_xor, Nat.testBit_two_pow_sub_one]
  by_cases h : i < 64
  · cases hm : m.testBit i <;> simp [h]
  · have hfalse : m.testBit i = false := by
      apply Nat.testBit_lt_two_pow
      calc m < 2 ^ 64 := hm64
        _ ≤ 2 ^ i := Nat.pow_le_pow_right (by norm_num) (by omega)
    simp [h, hfalse]

theorem testBit_credit_mask (i : Nat) :
    credit_mask.testBit i = (decide (24 ≤ i) && decide (i < 29)) := by
  rw [credit_mask_eq]
  simp only [Nat.testBit_shiftLeft, Nat.testBit_two_pow_sub_one]
  by_cases h1 : 24 ≤ i <;> by_cases h2 : i < 29 <;>
    simp [h1, h2, ge_iff_le] <;> omega

theorem testBit_is_locked_mask (i : Nat) :
    is_locked_mask.testBit i = decide (29 = i) := by
  rw [is_locked_mask_eq, Nat.testBit_two_pow]

theorem testBit_has_credits_mask (i : Nat) :
    has_credits_mask.testBit i = decide (30 = i) := by
  rw [has_credits_mask_eq, Nat.testBit_two_pow]

theorem testBit_was_split_mask (i : Nat) :
    was_split_mask.testBit i = decide (31 = i) := by
  rw [was_split_mask_eq, Nat.testBit_two_pow]

theorem credit_bits_mask_eq_or :
    credit_bits_mask = credit_mask ||| has_credits_mask ||| was_split_mask := by
  decide

theorem testBit_credit_bits_mask (i : Nat) :
    credit_bits_mask.testBit i =
      ((decide (24 ≤ i) && decide (i < 29)) || decide (30 = i) ||
        decide (31 = i)) := by
  rw [credit_bits_mask_eq_or]
  simp [Nat.testBit_or, testBit_credit_mask, testBit_has_credits_mask,
    testBit_was_split_mask]

theorem testBit_not_credit_mask (i : Nat) :
    (not64 credit_mask).testBit i =
      (decide (i < 64) && !(decide (24 ≤ i) && decide (i < 29))) := by
  rw [testBit_not64 _ _ (by decide), testBit_credit_mask]

theorem testBit_not_locked_mask (i : Nat) :
    (not64 is_locked_mask).testBit i =
      (decide (i < 64) && !(decide (29 = i))) := by
  rw [testBit_not64 _ _ (by decide), testBit_is_locked_mask]

theorem testBit_not_credit_bits_mask (i : Nat) :
    (not64 credit_bits_mask).testBit i =
      (decide (i < 64) &&
        !((decide (24 ≤ i) && decide (i < 29)) || decide (30 = i) ||
          decide (31 = i))) := by
  rw [testBit_not64 _ _ (by decide), testBit_credit_bits_mask]

/-- Bits of a value known to be below `2 ^ 5` vanish from position 5 on. -/
theorem testBit_small_false {k i : Nat} (hk : k < 32) (hi : 5 ≤ i) :
    k.testBit i = false := by
  apply Nat.testBit_lt_two_pow
  calc k < 32 := hk
    _ = 2 ^ 5 := by norm_num
    _ ≤ 2 ^ i := Nat.pow_le_pow_right (by norm_num) hi

theorem ne_zero_of_testBit {x : Nat} (i : Nat) (h : x.testBit i = true) :
    x ≠ 0 := by
  intro h0
  subst h0
  simp at h

/-! ### Codec lemmas: get after set round-trips on the credit field. -/

theorem get_log2credit_set_log2credit (g : gid_type) (k : Nat) (hk : k < 32) :
    get_log2credit_from_gid (set_log2credit_for_gid g k) = k := by
  apply Nat.eq_of_testBit_eq
  intro i
  simp only [get_log2credit_from_gid, set_log2credit_for_gid, credit_shift,
    credit_base_mask_eq, Nat.testBit_and, Nat.testBit_or,
    Nat.testBit_shiftRight, Nat.testBit_shiftLeft,
    Nat.testBit_two_pow_sub_one, testBit_not_credit_mask,
    testBit_credit_mask, testBit_has_credits_mask]
  by_cases h5 : i < 5
  · have h1 : 24 + i < 64 := by omega
    have h2 : 24 ≤ 24 + i := by omega
    have h3 : 24 + i < 29 := by omega
    have h4 : 24 + i - 24 = i := by omega
    have h6 : ¬ (30 = 24 + i) := by omega
    simp [h1, h2, h3, h4, h5, h6, ge_iff_le]
  · have h2 : k.testBit i = false := testBit_small_false hk (by omega)
    simp [h2, h5]

theorem has_credits_set_log2credit (g : gid_type) (k : Nat) :
    has_credits (set_log2credit_for_gid g k) = true := by
  simp only [has_credits, set_log2credit_for_gid, decide_eq_true_eq]
  apply ne_zero_of_testBit 30
  simp [Nat.testBit_and, Nat.testBit_or, testBit_has_credits_mask]

theorem was_split_set_split (g : gid_type) :
    gid_was_split (set_credit_split_mask_for_gid g) = true := by
  simp only [gid_was_split, set_credit_split_mask_for_gid, decide_eq_true_eq]
  apply ne_zero_of_testBit 31
  simp [Nat.testBit_and, Nat.testBit_or, testBit_was_split_mask]

theorem msb_land_set_split (g : gid_type) (m : Nat)
    (hm : m.testBit 31 = false) :
    (set_credit_split_mask_for_gid g).id_msb &&& m = g.id_msb &&& m := by
  apply Nat.eq_of_testBit_eq
  intro i
  simp only [set_credit_split_mask_for_gid, Nat.testBit_and, Nat.testBit_or,
    testBit_was_split_mask]
  by_cases h : 31 = i
  · subst h
    simp [hm]
  · simp [h]

theorem msb_land_set_log2credit (g : gid_type) (k : Nat) (m : Nat)
    (hm : ∀ i, 24 ≤ i → i ≤ 30 → m.testBit i = false) (hm64 : m < 2 ^ 64) :
    (set_log2credit_for_gid g k).id_msb &&& m = g.id_msb &&& m := by
  apply Nat.eq_of_testBit_eq
  intro i
  simp only [set_log2credit_for_gid, Nat.testBit_and, Nat.testBit_or,
    Nat.testBit_shiftLeft, testBit_not_credit_mask, testBit_credit_mask,
    testBit_has_credits_mask]
  by_cases h1 : 24 ≤ i ∧ i ≤ 30
  · have := hm i h1.1 h1.2
    simp [this]
  · have h30 : ¬ (30 = i) := by omega
    have hwin : ¬ (24 ≤ i ∧ i < 29) := by omega
    by_cases h64 : i < 64
    · by_cases h24 : 24 ≤ i
      · have : ¬ (i < 29) := by omega
        simp [h24, h30, h64, this]
      · simp [h24, h30, h64]
    · have hmf : m.testBit i = false := by
        apply Nat.testBit_lt_two_pow
        calc m < 2 ^ 64 := hm64
          _ ≤ 2 ^ i := Nat.pow_le_pow_right (by norm_num) (by omega)
      simp [h30, h64, hmf]

theorem msb_land_strip_lock (g : gid_type) (m : Nat)
    (hm : m.testBit 29 = false) (hm64 : m < 2 ^ 64) :
    (strip_lock_bit g).id_msb &&& m = g.id_msb &&& m := by
  apply Nat.eq_of_testBit_eq
  intro i
  simp only [strip_lock_bit, Nat.testBit_and, testBit_not_locked_mask]
  by_cases h29 : 29 = i
  · subst h29
    simp [hm]
  · by_cases h64 : i < 64
    · simp [h29, h64]
    · have hmf : m.testBit i = false := by
        apply Nat.testBit_lt_two_pow
        calc m < 2 ^ 64 := hm64
          _ ≤ 2 ^ i := Nat.pow_le_pow_right (by norm_num) (by omega)
      simp [h29, h64, hmf]

theorem floor_log2_pow : ∀ k, k < 64 → floor_log2 (2 ^ k) = k := by decide

/-! ### Per-bit behaviour of the mutators outside their own windows -/

theorem testBit_msb_acquire (g : gid_type) (i : Nat) (h : ¬ 29 = i) :
    (acquire_lock g).id_msb.testBit i = g.id_msb.testBit i := by
  simp [acquire_lock, Nat.testBit_or, testBit_is_locked_mask, h]

theorem testBit_msb_strip_lock (g : gid_type) (i : Nat) (h1 : ¬ 29 = i)
    (h2 : i < 64) :
    (strip_lock_bit g).id_msb.testBit i = g.id_msb.testBit i := by
  simp [strip_lock_bit, Nat.testBit_and, testBit_not_locked_mask, h1, h2]

theorem testBit_msb_set_split (g : gid_type) (i : Nat) (h : ¬ 31 = i) :
    (set_credit_split_mask_for_gid g).id_msb.testBit i =
      g.id_msb.testBit i := by
  simp [set_credit_split_mask_for_gid, Nat.testBit_or, testBit_was_split_mask,
    h]

theorem testBit_msb_set_log2credit (g : gid_type) (k : Nat) (i : Nat)
    (h1 : ¬ (24 ≤ i ∧ i < 29)) (h2 : ¬ 30 = i) (h3 : i < 64) :
    (set_log2credit_for_gid g k).id_msb.testBit i = g.id_msb.testBit i := by
  simp only [set_log2credit_for_gid, Nat.testBit_or, Nat.testBit_and,
    Nat.testBit_shiftLeft, testBit_not_credit_mask, testBit_credit_mask,
    testBit_has_credits_mask]
  by_cases h24 : 24 ≤ i
  · have h29 : ¬ (i < 29) := by omega
    simp [h24, h29, h2, h3, ge_iff_le]
  · simp [h24, h2, h3, ge_iff_le]

theorem testBit_msb_strip_credits (g : gid_type) (i : Nat)
    (h1 : ¬ (24 ≤ i ∧ i < 29)) (h2 : ¬ 30 = i) (h3 : ¬ 31 = i)
    (h4 : i < 64) :
    (strip_credits_from_gid g).id_msb.testBit i = g.id_msb.testBit i := by
  simp [strip_credits_from_gid, Nat.testBit_and, testBit_not_credit_bits_mask,
    h1, h2, h3, h4]
  exact fun _ => by omega

/-! ### Flag congruence -/

theorem has_credits_congr {g1 g2 : gid_type}
    (h : g1.id_msb.testBit 30 = g2.id_msb.testBit 30) :
    has_credits g1 = has_credits g2 := by
  simp only [has_credits]
  have heq : g1.id_msb &&& has_credits_mask = g2.id_msb &&& has_credits_mask := by
    apply Nat.eq_of_testBit_eq
    intro i
    simp only [Nat.testBit_and, testBit_has_credits_mask]
    by_cases h30 : 30 = i
    · subst h30
      rw [h]
    · simp [h30]
  rw [heq]

theorem was_split_congr {g1 g2 : gid_type}
    (h : g1.id_msb.testBit 31 = g2.id_msb.testBit 31) :
    gid_was_split g1 = gid_was_split g2 := by
  simp only [gid_was_split]
  have heq : g1.id_msb &&& was_split_mask = g2.id_msb &&& was_split_mask := by
    apply Nat.eq_of_testBit_eq
    intro i
    simp only [Nat.testBit_and, testBit_was_split_mask]
    by_cases h31 : 31 = i
    · subst h31
      rw [h]
    · simp [h31]
  rw [heq]

theorem get_log2credit_congr {g1 g2 : gid_type}
    (h : ∀ i, 24 ≤ i → i < 29 →
      g1.id_msb.testBit i = g2.id_msb.testBit i) :
    get_log2credit_from_gid g1 = get_log2credit_from_gid g2 := by
  apply Nat.eq_of_testBit_eq
  intro i
  simp only [get_log2credit_from_gid, credit_shift, credit_base_mask_eq,
    Nat.testBit_and, Nat.testBit_shiftRight, Nat.testBit_two_pow_sub_one]
  by_cases h5 : i < 5
  · rw [h (24 + i) (by omega) (by omega)]
  · simp [h5]

/-! ### Flag and field values after each mutator -/

theorem has_credits_acquire (g : gid_type) :
    has_credits (acquire_lock g) = has_credits g :=
  has_credits_congr (testBit_msb_acquire g 30 (by omega))

theorem has_credits_strip_lock (g : gid_type) :
    has_credits (strip_lock_bit g) = has_credits g :=
  has_credits_congr (testBit_msb_strip_lock g 30 (by omega) (by omega))

theorem has_credits_set_split (g : gid_type) :
    has_credits (set_credit_split_mask_for_gid g) = has_credits g :=
  has_credits_congr (testBit_msb_set_split g 30 (by omega))

theorem was_split_acquire (g : gid_type) :
    gid_was_split (acquire_lock g) = gid_was_split g :=
  was_split_congr (testBit_msb_acquire g 31 (by omega))

theorem was_split_strip_lock (g : gid_type) :
    gid_was_split (strip_lock_bit g) = gid_was_split g :=
  was_split_congr (testBit_msb_strip_lock g 31 (by omega) (by omega))

theorem was_split_set_log2credit (g : gid_type) (k : Nat) :
    gid_was_split (set_log2credit_for_gid g k) = gid_was_split g :=
  was_split_congr
    (testBit_msb_set_log2credit g k 31 (by omega) (by omega) (by omega))

theorem get_log2credit_acquire (g : gid_type) :
    get_log2credit_from_gid (acquire_lock g) = get_log2credit_from_gid g :=
  get_log2credit_congr fun i h1 h2 => testBit_msb_acquire g i (by omega)

theorem get_log2credit_strip_lock (g : gid_type) :
    get_log2credit_from_gid (strip_lock_bit g) = get_log2credit_from_gid g :=
  get_log2credit_congr fun i h1 h2 =>
    testBit_msb_strip_lock g i (by omega) (by omega)

theorem get_log2credit_set_split (g : gid_type) :
    get_log2credit_from_gid (set_credit_split_mask_for_gid g) =
      get_log2credit_from_gid g :=
  get_log2credit_congr fun i h1 h2 => testBit_msb_set_split g i (by omega)

theorem is_locked_strip_lock (g : gid_type) :
    is_locked (strip_lock_bit g) = false := by
  simp only [is_locked, decide_eq_false_iff_not, ne_eq, not_not]
  apply Nat.eq_of_testBit_eq
  intro i
  simp only [strip_lock_bit, Nat.testBit_and, testBit_not_locked_mask,
    testBit_is_locked_mask, Nat.zero_testBit]
  by_cases h : 29 = i
  · subst h
    simp
  · simp [h]

theorem has_credits_strip_credits (g : gid_type) :
    has_credits (strip_credits_from_gid g) = false := by
  simp only [has_credits, decide_eq_false_iff_not, ne_eq, not_not]
  apply Nat.eq_of_testBit_eq
  intro i
  simp only [strip_credits_from_gid, Nat.testBit_and,
    testBit_not_credit_bits_mask, testBit_has_credits_mask, Nat.zero_testBit]
  by_cases h : 30 = i
  · subst h
    simp
  · simp [h]

/-! ### Derived credit-value lemmas -/

theorem get_log2credit_lt (g : gid_type) : get_log2credit_from_gid g < 32 := by
  have h := Nat.and_le_right (n := g.id_msb >>> credit_shift)
    (m := credit_base_mask)
  simp only [get_log2credit_from_gid]
  have : credit_base_mask = 31 := by decide
  omega

theorem get_credit_eq (g : gid_type) (h : has_credits g = true) :
    get_credit_from_gid g = 2 ^ get_log2credit_from_gid g := by
  simp [get_credit_from_gid, h, Nat.shiftLeft_eq]

theorem get_credit_pos (g : gid_type) (h : has_credits g = true) :
    0 < get_credit_from_gid g := by
  rw [get_credit_eq g h]
  positivity

theorem get_credit_strip_lock (g : gid_type) :
    get_credit_from_gid (strip_lock_bit g) = get_credit_from_gid g := by
  simp [get_credit_from_gid, has_credits_strip_lock,
    get_log2credit_strip_lock]

theorem get_credit_acquire (g : gid_type) :
    get_credit_from_gid (acquire_lock g) = get_credit_from_gid g := by
  simp [get_credit_from_gid, has_credits_acquire, get_log2credit_acquire]

theorem get_credit_set_split (g : gid_type) :
    get_credit_from_gid (set_credit_split_mask_for_gid g) =
      get_credit_from_gid g := by
  simp [get_credit_from_gid, has_credits_set_split, get_log2credit_set_split]

theorem get_credit_set_credit_pow (g : gid_type) (k : Nat) (hk : k < 32) :
    get_credit_from_gid (set_credit_for_gid g (2 ^ k)) = 2 ^ k := by
  have hne : (2 ^ k : Nat) ≠ 0 := by positivity
  simp only [set_credit_for_gid, if_pos hne]
  rw [floor_log2_pow k (by omega),
    get_credit_eq _ (has_credits_set_log2credit _ _),
    get_log2credit_set_log2credit _ _ hk]

theorem was_split_set_credit_pow (g : gid_type) (k : Nat) :
    gid_was_split (set_credit_for_gid g (2 ^ k)) = gid_was_split g := by
  have hne : (2 ^ k : Nat) ≠ 0 := by positivity
  simp only [set_credit_for_gid, if_pos hne]
  exact was_split_set_log2credit _ _

theorem has_credits_set_credit_pow (g : gid_type) (k : Nat) :
    has_credits (set_credit_for_gid g (2 ^ k)) = true := by
  have hne : (2 ^ k : Nat) ≠ 0 := by positivity
  simp only [set_credit_for_gid, if_pos hne]
  exact has_credits_set_log2credit _ _

/-! ## The credit-split protocol (`name.cpp`)

Each function below mirrors one function of `name.cpp`.  The embedded
spinlock is modelled explicitly: the `_locked` variants operate on an
identifier whose lock bit is set, the public wrappers acquire and release
it, and gid copies strip it exactly where the C++ copy constructor does. -/

/-- Result of `split_gid_if_needed`: either an immediately ready gid
(`make_ready_future`) or a pending AGAS `incref` of the given amount whose
continuation will run `postprocess_incref`. -/
inductive split_result where
  | ready (new_gid : gid_type)
  | pending (incref_gid : gid_type) (amount : Int)
deriving DecidableEq, Repr

/-- `split_credits_for_gid_locked`: halve the credit of `id` (the lock is
held, so its lock bit is set), hand the other half to a stripped copy and
mark both as split.  The C++ asserts `log2credits > 0`; below that bound
the model's truncated subtraction and the C++ signed shift differ, but no
caller reaches it. -/
def split_credits_for_gid_locked (id : gid_type) : gid_type × gid_type :=
  let log2credits := get_log2credit_from_gid id
  let newid := strip_lock_bit id
  let id2 := set_credit_split_mask_for_gid
    (set_log2credit_for_gid id (log2credits - 1))
  let newid2 := set_credit_split_mask_for_gid
    (set_log2credit_for_gid newid (log2credits - 1))
  (id2, newid2)

/-- `split_credits_for_gid`: the locking wrapper. -/
def split_credits_for_gid (g : gid_type) : gid_type × gid_type :=
  let l := acquire_lock g
  let r := split_credits_for_gid_locked l
  (release_lock r.1, r.2)

/-- `postprocess_incref(gid)`: continuation of the Case-B `incref`.
Returns the updated source gid, the replenished new gid handed to the
caller, and the overflow credit; a `decref(new_gid, overflow)` is issued
after the lock is released iff the overflow is positive. -/
def postprocess_incref (gid : gid_type) : gid_type × gid_type × Int :=
  let l := acquire_lock gid
  let new_gid0 := strip_lock_bit l
  let new_gid := set_credit_split_mask_for_gid
    (set_credit_for_gid new_gid0 HPX_GLOBALCREDIT_INITIAL)
  let src_credit : Int := (get_credit_from_gid l : Int)
  let split_credit : Int := (HPX_GLOBALCREDIT_INITIAL : Int) - 2
  let new_credit : Int := src_credit + split_credit
  let overflow_credit : Int := new_credit - (HPX_GLOBALCREDIT_INITIAL : Int)
  let new_credit2 : Int := min ((HPX_GLOBALCREDIT_INITIAL : Int)) new_credit
  let src_out := release_lock (set_credit_for_gid l new_credit2.toNat)
  (src_out, new_gid, overflow_credit)

/-- `split_gid_if_needed` / `split_gid_if_needed_locked`: the split entry
point.  Case `log2credit == 1` marks the source as split, releases the lock
and issues `incref(new_gid, 2 * (HPX_GLOBALCREDIT_INITIAL - 1))`; otherwise
the fast local path or, without credits, a plain stripped copy. -/
def split_gid_if_needed (gid : gid_type) : gid_type × split_result :=
  let l := acquire_lock gid
  if has_credits l then
    let src_log2credits := get_log2credit_from_gid l
    if src_log2credits = 1 then
      let marked := set_credit_split_mask_for_gid l
      let unlocked := release_lock marked
      let new_credit : Int := 2 * ((HPX_GLOBALCREDIT_INITIAL : Int) - 1)
      let new_gid := strip_lock_bit marked
      (unlocked, .pending new_gid new_credit)
    else
      let r := split_credits_for_gid_locked l
      (release_lock r.1, .ready r.2)
  else
    let new_gid := strip_lock_bit l
    (release_lock l, .ready new_gid)

/-- `move_gid_locked`: keep a stripped copy carrying all the credit and
strip the credits from the source. -/
def move_gid_locked (gid : gid_type) : gid_type × gid_type :=
  let new_gid := strip_lock_bit gid
  let g2 := if has_credits gid then strip_credits_from_gid gid else gid
  (g2, new_gid)

/-- `move_gid`: the locking wrapper; returns (stripped source, moved gid). -/
def move_gid (gid : gid_type) : gid_type × gid_type :=
  let l := acquire_lock gid
  let r := move_gid_locked l
  (release_lock r.1, r.2)

/-! ## Deleters (`decrement_refcnt`, `gid_managed_deleter`)

The runtime environment a deleter runs in, and the externally observable
outcome of running it.  `resolve_ok` models whether
`agas_client.resolve_cached` finds an address, `decref_throws` whether the
fire-and-forget `agas::decref` raises, `destroy_throws` what
`destroy_component` raises, and `tm_stopping` whether the thread manager is
in the stopping state. -/

inductive error_kind where
  | invalid_status
  | version_too_new
  | invalid_argument
  | bad_parameter
  | assertion_failure
deriving DecidableEq, Repr

structure deleter_env where
  runtime_up : Bool
  resolve_ok : Bool
  decref_throws : Bool
  destroy_throws : Option error_kind
  tm_stopping : Bool
deriving DecidableEq, Repr

structure deleter_result where
  decrefs : List Nat
  destroy_calls : Nat
  logged_errors : Nat
  freed : Bool
  propagated : Option error_kind
deriving DecidableEq, Repr

/-- `decrement_refcnt`: the managed deletion decision tree.  A rethrown
`destroy_component` error leaves the function before the final `delete p`,
so `freed` is false exactly on that path. -/
def decrement_refcnt (env : deleter_env) (p : gid_type) : deleter_result :=
  if env.runtime_up = false then
    ⟨[], 0, 0, true, none⟩
  else if gid_was_split p || !env.resolve_ok then
    let credits := get_credit_from_gid p
    ⟨[credits], 0, if env.decref_throws then 1 else 0, true, none⟩
  else
    match env.destroy_throws with
    | none => ⟨[], 1, 0, true, none⟩
    | some e =>
      if e ≠ error_kind.invalid_status ∨ env.tm_stopping = false then
        ⟨[], 1, 0, false, some e⟩
      else
        ⟨[], 1, 0, true, none⟩

/-- `gid_managed_deleter`: run `decrement_refcnt` only when the gid holds
credits, otherwise just free the local representation. -/
def gid_managed_deleter (env : deleter_env) (p : gid_type) : deleter_result :=
  if has_credits p then decrement_refcnt env p
  else ⟨[], 0, 0, true, none⟩

/-- `gid_unmanaged_deleter`: free the local representation only. -/
def gid_unmanaged_deleter (_env : deleter_env) (_p : gid_type) :
    deleter_result :=
  ⟨[], 0, 0, true, none⟩

/-! ## Handles and serialization (`id_type_impl`) -/

/-- Management discipline codes, the values of the C++
`id_type_management` enum. -/
def unknown_deleter : Int := -1

def unmanaged : Int := 0

def managed : Int := 1

def managed_move_credit : Int := 2

/-- The internal record of a handle: one raw identifier plus the
management discipline. -/
structure id_type_impl where
  gid : gid_type
  type_ : Int
deriving DecidableEq, Repr

/-- The record a handle serializes to: `{gid, management}`. -/
structure gid_serialization_data where
  gid_ : gid_type
  type_ : Int
deriving DecidableEq, Repr

inductive deleter_kind where
  | unmanaged_deleter_fn
  | managed_deleter_fn
deriving DecidableEq, Repr

/-- `id_type_impl::get_deleter`: dispatch on the management type.  The
default branch fails a debug assertion (`HPX_ASSERT(false)`) and falls
back on the unmanaged deleter; no exception is raised.  The second
component records whether the assertion held. -/
def get_deleter (t : Int) : deleter_kind × Bool :=
  if t = unmanaged then (.unmanaged_deleter_fn, true)
  else if t = managed ∨ t = managed_move_credit then (.managed_deleter_fn, true)
  else (.unmanaged_deleter_fn, false)

/-- What the preprocessing pass does for one handle. -/
inductive preprocess_action where
  | no_action
  | reuse_existing
  | request_split
deriving DecidableEq, Repr

/-- `id_type_impl::preprocess_gid`: the preprocessing pass for one handle.
`checkpointing` models `ar.try_get_extra_data<checkpointing_tag>()`,
`table_has_gid` models `split_gids.has_gid(*this)`.  The check-pointing
test precedes every gid-table access and every split. -/
def preprocess_gid (h : id_type_impl) (checkpointing : Bool)
    (table_has_gid : Bool) : Except error_kind preprocess_action :=
  if h.type_ = unmanaged then .ok .no_action
  else if checkpointing then .error .invalid_status
  else if table_has_gid then .ok .reuse_existing
  else if h.type_ = managed then .ok .request_split
  else .ok .no_action

/-- `id_type_impl::save`, preprocessing branch (`ar.is_preprocessing()`):
run `preprocess_gid`, then write the unmodified `{gid, type}` record. -/
def id_type_impl_save_preprocessing (h : id_type_impl)
    (checkpointing : Bool) (table_has_gid : Bool) :
    Except error_kind (preprocess_action × gid_serialization_data) :=
  match preprocess_gid h checkpointing table_has_gid with
  | .error e => .error e
  | .ok a => .ok (a, ⟨h.gid, h.type_⟩)

/-- `id_type_impl::save`, save branch: write the resolved record.  The
split-gid table is the archive's `preprocess_gid_types` extra data; a miss
on the managed path trips `HPX_ASSERT(new_gid != invalid_gid)`, modelled
as `assertion_failure`.  Returns the written record and the
(possibly credit-stripped) post-save handle. -/
def id_type_impl_save (h : id_type_impl) (checkpointing : Bool)
    (split_gids_table : gid_type → Option gid_type) :
    Except error_kind (gid_serialization_data × id_type_impl) :=
  if h.type_ ≠ unmanaged ∧ checkpointing then .error .invalid_status
  else if h.type_ = unmanaged then .ok (⟨h.gid, h.type_⟩, h)
  else if h.type_ = managed_move_credit then
    let r := move_gid h.gid
    .ok (⟨r.2, managed⟩, ⟨r.1, h.type_⟩)
  else
    match split_gids_table h.gid with
    | some new_gid => .ok (⟨new_gid, h.type_⟩, h)
    | none => .error .assertion_failure

/-- `gid_type::load`: read the two halves and strip the lock bit upon
receive. -/
def gid_type_load (msb lsb : Nat) : gid_type :=
  strip_lock_bit ⟨msb, lsb⟩

/-- `id_type_impl::load`: read `{gid, management}` and reject any
management value other than `unmanaged` or `managed`. -/
def id_type_impl_load (data : gid_serialization_data) :
    Except error_kind id_type_impl :=
  if data.type_ ≠ unmanaged ∧ data.type_ ≠ managed then
    .error .version_too_new
  else .ok ⟨data.gid_, data.type_⟩

/-- Loading a handle from its wire form: `gid_type::load` on the identifier
halves followed by `id_type_impl::load` on the record. -/
def id_type_load_wire (msb lsb : Nat) (t : Int) :
    Except error_kind id_type_impl :=
  id_type_impl_load ⟨gid_type_load msb lsb, t⟩

/-! ## Identifier arithmetic (`operator+`, `operator-`) -/

/-- `operator+` on gids: component-wise 64-bit addition; one is carried
into the msb iff the lsb addition wrapped (`lsb < lhs.lsb || lsb < rhs.lsb`
in the source). -/
def gid_add (lhs rhs : gid_type) : gid_type :=
  let lsb := (lhs.id_lsb + rhs.id_lsb) % 2 ^ 64
  let msb := (lhs.id_msb + rhs.id_msb) % 2 ^ 64
  let msb2 := if lsb < lhs.id_lsb ∨ lsb < rhs.id_lsb
    then (msb + 1) % 2 ^ 64 else msb
  ⟨msb2, lsb⟩

/-- `operator-` on gids: component-wise 64-bit subtraction; one is borrowed
from the msb iff the lsb subtraction wrapped (`lsb > lhs.lsb` in the
source).  64-bit two's-complement subtraction `a - b` is modelled as
`(a + (2^64 - b)) % 2^64`. -/
def gid_sub (lhs rhs : gid_type) : gid_type :=
  let lsb := (lhs.id_lsb + (2 ^ 64 - rhs.id_lsb)) % 2 ^ 64
  let msb := (lhs.id_msb + (2 ^ 64 - rhs.id_msb)) % 2 ^ 64
  let msb2 := if lsb > lhs.id_lsb then (msb + (2 ^ 64 - 1)) % 2 ^ 64 else msb
  ⟨msb2, lsb⟩

/-- The internal flag window of an identifier: msb bits 24..31. -/
def flag_window (g : gid_type) : Nat := (g.id_msb >>> 24) &&& 0xff

/-! ## Textual form (`gid_type::to_string`, `operator<<`) -/

/-- One lower-case hexadecimal digit. -/
def hex_digit_char (d : Nat) : Char :=
  if d < 10 then Char.ofNat (48 + d) else Char.ofNat (87 + d)

/-- A 64-bit value as 16 zero-padded lower-case hex characters, most
significant digit first (`std::hex`, `setfill('0')`, `setw(16)`). -/
def hex16 (n : Nat) : String :=
  String.mk ((List.range 16).map fun i =>
    hex_digit_char ((n >>> (4 * (15 - i))) &&& 15))

/-- `gid_type::to_string`: the 16 msb digits immediately followed by the
16 lsb digits; no braces, no separator, no validity check. -/
def gid_to_string (g : gid_type) : String :=
  hex16 g.id_msb ++ hex16 g.id_lsb

/-- `operator<<` on gids: the braced rendering, or `\x7binvalid\x7d` for the
invalid identifier. -/
def gid_stream_insert (g : gid_type) : String :=
  if g ≠ invalid_gid then
    "\x7b" ++ hex16 g.id_msb ++ ", " ++ hex16 g.id_lsb ++ "\x7d"
  else "\x7binvalid\x7d"

/-! ## Two concurrent splitters (scenario S3)

Two threads repeatedly call the split protocol on one shared gid.  Each
thread performs at most two atomic sections, exactly the regions the
embedded lock protects in the source: the body of
`split_gid_if_needed_locked` (after which a Case-B thread has issued its
`incref` and waits), and the body of `postprocess_incref` (after which the
thread holds its finished new gid).  A schedule is the order in which the
threads get to run their next atomic section. -/

inductive thread_state where
  | initial
  | pendingB
  | finished (g : gid_type)
deriving DecidableEq, Repr

structure race_state where
  gid : gid_type
  t1 : thread_state
  t2 : thread_state
  increfs : List Int
  decrefs : List Int
deriving DecidableEq, Repr

/-- Run one thread's next atomic section against the shared gid; returns
the updated shared gid, thread state, and incref/decref logs. -/
def thread_step (g : gid_type) (t : thread_state)
    (increfs decrefs : List Int) :
    gid_type × thread_state × List Int × List Int :=
  match t with
  | .initial =>
    let r := split_gid_if_needed g
    match r.2 with
    | .ready ng => (r.1, .finished ng, increfs, decrefs)
    | .pending _ amt => (r.1, .pendingB, increfs ++ [amt], decrefs)
  | .pendingB =>
    let r := postprocess_incref g
    let decrefs2 := if 0 < r.2.2 then decrefs ++ [r.2.2] else decrefs
    (r.1, .finished r.2.1, increfs, decrefs2)
  | .finished ng => (g, .finished ng, increfs, decrefs)

/-- One scheduling step: `false` runs thread 1, `true` runs thread 2. -/
def race_step (s : race_state) (who : Bool) : race_state :=
  if who = false then
    let r := thread_step s.gid s.t1 s.increfs s.decrefs
    ⟨r.1, r.2.1, s.t2, r.2.2.1, r.2.2.2⟩
  else
    let r := thread_step s.gid s.t2 s.increfs s.decrefs
    ⟨r.1, s.t1, r.2.1, r.2.2.1, r.2.2.2⟩

/-- Run a whole schedule from the initial two-splitter state. -/
def run_race (g0 : gid_type) (sched : List Bool) : race_state :=
  sched.foldl race_step ⟨g0, .initial, .initial, [], []⟩

/-- Credit held by a thread: only a finished thread holds a handle. -/
def thread_credit : thread_state → Nat
  | .finished g => get_credit_from_gid g
  | _ => 0

/-- Credit requested from AGAS by a mid-Case-B thread and not yet
materialized in any handle. -/
def thread_inflight : thread_state → Int
  | .pendingB => 2 * ((HPX_GLOBALCREDIT_INITIAL : Int) - 1)
  | _ => 0

/-- Number of atomic sections a thread has already run. -/
def thread_started : thread_state → Nat
  | .initial => 0
  | _ => 1

/-! ## Flag bits as testBit -/

theorem has_credits_eq_testBit (g : gid_type) :
    has_credits g = g.id_msb.testBit 30 := by
  simp only [has_credits, has_credits_mask_eq, Nat.and_two_pow]
  cases h : g.id_msb.testBit 30 <;> simp [h]

theorem was_split_eq_testBit (g : gid_type) :
    gid_was_split g = g.id_msb.testBit 31 := by
  simp only [gid_was_split, was_split_mask_eq, Nat.and_two_pow]
  cases h : g.id_msb.testBit 31 <;> simp [h]

theorem is_locked_eq_testBit (g : gid_type) :
    is_locked g = g.id_msb.testBit 29 := by
  simp only [is_locked, is_locked_mask_eq, Nat.and_two_pow]
  cases h : g.id_msb.testBit 29 <;> simp [h]

/-! ## Characterizations of the protocol functions -/

theorem split_credits_for_gid_eq (g : gid_type) :
    split_credits_for_gid g =
      (release_lock (set_credit_split_mask_for_gid
          (set_log2credit_for_gid (acquire_lock g)
            (get_log2credit_from_gid g - 1))),
        set_credit_split_mask_for_gid
          (set_log2credit_for_gid (strip_lock_bit (acquire_lock g))
            (get_log2credit_from_gid g - 1))) := by
  simp [split_credits_for_gid, split_credits_for_gid_locked,
    get_log2credit_acquire]

theorem split_credits_src_fields (g : gid_type) :
    has_credits (split_credits_for_gid g).1 = true ∧
    gid_was_split (split_credits_for_gid g).1 = true ∧
    get_log2credit_from_gid (split_credits_for_gid g).1 =
      get_log2credit_from_gid g - 1 := by
  rw [split_credits_for_gid_eq]
  refine ⟨?_, ?_, ?_⟩
  · simp only [release_lock, has_credits_strip_lock, has_credits_set_split]
    exact has_credits_set_log2credit _ _
  · simp only [release_lock, was_split_strip_lock]
    exact was_split_set_split _
  · simp only [release_lock, get_log2credit_strip_lock,
      get_log2credit_set_split]
    exact get_log2credit_set_log2credit _ _
      (by have := get_log2credit_lt g; omega)

theorem split_credits_new_fields (g : gid_type) :
    has_credits (split_credits_for_gid g).2 = true ∧
    gid_was_split (split_credits_for_gid g).2 = true ∧
    get_log2credit_from_gid (split_credits_for_gid g).2 =
      get_log2credit_from_gid g - 1 := by
  rw [split_credits_for_gid_eq]
  refine ⟨?_, ?_, ?_⟩
  · simp only [has_credits_set_split]
    exact has_credits_set_log2credit _ _
  · exact was_split_set_split _
  · simp only [get_log2credit_set_split]
    exact get_log2credit_set_log2credit _ _
      (by have := get_log2credit_lt g; omega)

theorem split_gid_if_needed_caseB (g : gid_type)
    (hc : has_credits g = true) (h1 : get_log2credit_from_gid g = 1) :
    split_gid_if_needed g =
      (release_lock (set_credit_split_mask_for_gid (acquire_lock g)),
        .pending (strip_lock_bit (set_credit_split_mask_for_gid
            (acquire_lock g)))
          (2 * ((HPX_GLOBALCREDIT_INITIAL : Int) - 1))) := by
  have hca : has_credits (acquire_lock g) = true := by
    rw [has_credits_acquire]; exact hc
  have hla : get_log2credit_from_gid (acquire_lock g) = 1 := by
    rw [get_log2credit_acquire]; exact h1
  simp [split_gid_if_needed, hca, hla]

theorem split_gid_if_needed_fast (g : gid_type)
    (hc : has_credits g = true) (h1 : get_log2credit_from_gid g ≠ 1) :
    split_gid_if_needed g =
      ((split_credits_for_gid g).1, .ready (split_credits_for_gid g).2) := by
  have hca : has_credits (acquire_lock g) = true := by
    rw [has_credits_acquire]; exact hc
  have hla : get_log2credit_from_gid (acquire_lock g) ≠ 1 := by
    rw [get_log2credit_acquire]; exact h1
  simp [split_gid_if_needed, hca, hla, split_credits_for_gid]

theorem split_gid_if_needed_nocredit (g : gid_type)
    (hc : has_credits g = false) :
    split_gid_if_needed g =
      (release_lock (acquire_lock g),
        .ready (strip_lock_bit (acquire_lock g))) := by
  have hca : has_credits (acquire_lock g) = false := by
    rw [has_credits_acquire]; exact hc
  simp [split_gid_if_needed, hca]

theorem c0_eq_pow : HPX_GLOBALCREDIT_INITIAL = 2 ^ 16 := by decide

/-- Closed form of `postprocess_incref`, making the three components
explicit. -/
theorem postprocess_incref_eq (g : gid_type) :
    postprocess_incref g =
      (release_lock (set_credit_for_gid (acquire_lock g)
          (min ((HPX_GLOBALCREDIT_INITIAL : Int))
            ((get_credit_from_gid (acquire_lock g) : Int) +
              ((HPX_GLOBALCREDIT_INITIAL : Int) - 2))).toNat),
        set_credit_split_mask_for_gid
          (set_credit_for_gid (strip_lock_bit (acquire_lock g))
            HPX_GLOBALCREDIT_INITIAL),
        (get_credit_from_gid (acquire_lock g) : Int) +
          ((HPX_GLOBALCREDIT_INITIAL : Int) - 2) -
          (HPX_GLOBALCREDIT_INITIAL : Int)) := rfl

theorem postprocess_incref_spec (g : gid_type)
    (hc : has_credits g = true) (h2 : 2 ≤ get_credit_from_gid g) :
    get_credit_from_gid (postprocess_incref g).2.1 =
      HPX_GLOBALCREDIT_INITIAL ∧
    gid_was_split (postprocess_incref g).2.1 = true ∧
    has_credits (postprocess_incref g).2.1 = true ∧
    get_credit_from_gid (postprocess_incref g).1 =
      HPX_GLOBALCREDIT_INITIAL ∧
    has_credits (postprocess_incref g).1 = true ∧
    gid_was_split (postprocess_incref g).1 = gid_was_split g ∧
    (postprocess_incref g).2.2 = (get_credit_from_gid g : Int) - 2 := by
  have hmin : min ((HPX_GLOBALCREDIT_INITIAL : Int))
      ((get_credit_from_gid (acquire_lock g) : Int) +
        ((HPX_GLOBALCREDIT_INITIAL : Int) - 2)) =
      (HPX_GLOBALCREDIT_INITIAL : Int) := by
    rw [get_credit_acquire]
    have : (2 : Int) ≤ (get_credit_from_gid g : Int) := by exact_mod_cast h2
    omega
  have htoNat : ((HPX_GLOBALCREDIT_INITIAL : Int)).toNat =
      HPX_GLOBALCREDIT_INITIAL := by decide
  refine ⟨?_, ?_, ?_, ?_, ?_, ?_, ?_⟩
  · rw [postprocess_incref_eq]
    simp only [get_credit_set_split]
    rw [c0_eq_pow]
    exact get_credit_set_credit_pow _ 16 (by omega)
  · rw [postprocess_incref_eq]
    exact was_split_set_split _
  · rw [postprocess_incref_eq]
    simp only [has_credits_set_split]
    rw [c0_eq_pow]
    exact has_credits_set_credit_pow _ 16
  · rw [postprocess_incref_eq, hmin, htoNat]
    simp only [release_lock, get_credit_strip_lock]
    rw [c0_eq_pow]
    exact get_credit_set_credit_pow _ 16 (by omega)
  · rw [postprocess_incref_eq, hmin, htoNat]
    simp only [release_lock, has_credits_strip_lock]
    rw [c0_eq_pow]
    exact has_credits_set_credit_pow _ 16
  · rw [postprocess_incref_eq, hmin, htoNat]
    simp only [release_lock, was_split_strip_lock]
    rw [c0_eq_pow, was_split_set_credit_pow, was_split_acquire]
  · rw [postprocess_incref_eq]
    simp only [get_credit_acquire]
    ring

/-! ## Conservation invariant for the two-splitter race -/

/-- The credit-conservation invariant: the shared gid holds a valid credit
of at least 2, and all credit is accounted for — handle credits plus
issued decrefs plus in-flight replenishments balance the initial credit 2
plus all issued increfs.  The incref log never exceeds the number of
started threads and only ever carries the Case-B amount. -/
def race_inv (s : race_state) : Prop :=
  has_credits s.gid = true ∧ 2 ≤ get_credit_from_gid s.gid ∧
  ((get_credit_from_gid s.gid : Int) + (thread_credit s.t1 : Int) +
      (thread_credit s.t2 : Int) + s.decrefs.sum +
      thread_inflight s.t1 + thread_inflight s.t2 =
    2 + s.increfs.sum) ∧
  s.increfs.length ≤ thread_started s.t1 + thread_started s.t2 ∧
  ∀ a ∈ s.increfs, a = 2 * ((HPX_GLOBALCREDIT_INITIAL : Int) - 1)

theorem thread_step_inv (g : gid_type) (t : thread_state)
    (increfs decrefs : List Int)
    (hg : has_credits g = true) (h2 : 2 ≤ get_credit_from_gid g) :
    has_credits (thread_step g t increfs decrefs).1 = true ∧
    2 ≤ get_credit_from_gid (thread_step g t increfs decrefs).1 ∧
    ((get_credit_from_gid (thread_step g t increfs decrefs).1 : Int) +
        (thread_credit (thread_step g t increfs decrefs).2.1 : Int) +
        (thread_step g t increfs decrefs).2.2.2.sum +
        thread_inflight (thread_step g t increfs decrefs).2.1 +
        increfs.sum =
      (get_credit_from_gid g : Int) + (thread_credit t : Int) +
        decrefs.sum + thread_inflight t +
        (thread_step g t increfs decrefs).2.2.1.sum) ∧
    ((thread_step g t increfs decrefs).2.2.1.length + thread_started t ≤
      increfs.length +
        thread_started (thread_step g t increfs decrefs).2.1) ∧
    (∀ a ∈ (thread_step g t increfs decrefs).2.2.1,
      a ∈ increfs ∨ a = 2 * ((HPX_GLOBALCREDIT_INITIAL : Int) - 1)) := by
  have hk32 := get_log2credit_lt g
  match t with
  | .finished gf =>
    simp only [thread_step, thread_credit, thread_inflight, thread_started]
    refine ⟨hg, h2, by ring, by omega, fun a ha => Or.inl ha⟩
  | .pendingB =>
    obtain ⟨hn1, hn2, hn3, hs1, hs2, hs3, hovf⟩ :=
      postprocess_incref_spec g hg h2
    have hc2 : (2 : Int) ≤ (get_credit_from_gid g : Int) := by
      exact_mod_cast h2
    have hC0 : (2 : Int) ≤ (HPX_GLOBALCREDIT_INITIAL : Int) := by decide
    have hp1 : (thread_step g .pendingB increfs decrefs).1 =
        (postprocess_incref g).1 := by
      simp only [thread_step]
    have hp2 : (thread_step g .pendingB increfs decrefs).2.1 =
        .finished (postprocess_incref g).2.1 := by
      simp only [thread_step]
    have hp3 : (thread_step g .pendingB increfs decrefs).2.2.1 =
        increfs := by
      simp only [thread_step]
    have hp4 : (thread_step g .pendingB increfs decrefs).2.2.2 =
        if 0 < (postprocess_incref g).2.2 then
          decrefs ++ [(postprocess_incref g).2.2] else decrefs := by
      simp only [thread_step]
    rw [hp1, hp2, hp3, hp4]
    simp only [thread_credit, thread_inflight, thread_started]
    refine ⟨hs2, ?_, ?_, by omega, fun a ha => Or.inl ha⟩
    · rw [hs1]
      decide
    · by_cases hpos : 0 < (postprocess_incref g).2.2
      · rw [if_pos hpos, List.sum_append, List.sum_cons, List.sum_nil,
          hovf, hn1, hs1]
        push_cast
        ring
      · rw [if_neg hpos]
        rw [hovf] at hpos
        have hce : (get_credit_from_gid g : Int) = 2 := by omega
        rw [hn1, hs1]
        push_cast
        push_cast at hce
        omega
  | .initial =>
    by_cases hk : get_log2credit_from_gid g = 1
    · have hcaseB := split_gid_if_needed_caseB g hg hk
      have hp1 : (thread_step g .initial increfs decrefs).1 =
          (split_gid_if_needed g).1 := by
        simp only [thread_step, hcaseB]
      have hp2 : (thread_step g .initial increfs decrefs).2.1 =
          .pendingB := by
        simp only [thread_step, hcaseB]
      have hp3 : (thread_step g .initial increfs decrefs).2.2.1 =
          increfs ++ [2 * ((HPX_GLOBALCREDIT_INITIAL : Int) - 1)] := by
        simp only [thread_step, hcaseB]
      have hp4 : (thread_step g .initial increfs decrefs).2.2.2 =
          decrefs := by
        simp only [thread_step, hcaseB]
      have e1 : has_credits (split_gid_if_needed g).1 = true := by
        rw [hcaseB]
        simp only [release_lock, has_credits_strip_lock,
          has_credits_set_split, has_credits_acquire]
        exact hg
      have e2 : get_credit_from_gid (split_gid_if_needed g).1 =
          get_credit_from_gid g := by
        rw [hcaseB]
        simp only [release_lock, get_credit_strip_lock,
          get_credit_set_split, get_credit_acquire]
      rw [hp1, hp2, hp3, hp4]
      simp only [thread_credit, thread_inflight, thread_started]
      refine ⟨e1, by omega, ?_, by simp [List.length_append], ?_⟩
      · rw [e2, List.sum_append, List.sum_cons, List.sum_nil]
        push_cast
        ring
      · intro a ha
        rcases List.mem_append.mp ha with h | h
        · exact Or.inl h
        · simp at h
          exact Or.inr h
    · have hfast := split_gid_if_needed_fast g hg hk
      have hp1 : (thread_step g .initial increfs decrefs).1 =
          (split_credits_for_gid g).1 := by
        simp only [thread_step, hfast]
      have hp2 : (thread_step g .initial increfs decrefs).2.1 =
          .finished (split_credits_for_gid g).2 := by
        simp only [thread_step, hfast]
      have hp3 : (thread_step g .initial increfs decrefs).2.2.1 =
          increfs := by
        simp only [thread_step, hfast]
      have hp4 : (thread_step g .initial increfs decrefs).2.2.2 =
          decrefs := by
        simp only [thread_step, hfast]
      have hk2 : 2 ≤ get_log2credit_from_gid g := by
        by_contra hlt
        push_neg at hlt
        have h01 : get_log2credit_from_gid g = 0 := by omega
        rw [get_credit_eq g hg, h01] at h2
        norm_num at h2
      obtain ⟨f1, f2, f3⟩ := split_credits_src_fields g
      obtain ⟨n1, n2, n3⟩ := split_credits_new_fields g
      have hcs : get_credit_from_gid (split_credits_for_gid g).1 =
          2 ^ (get_log2credit_from_gid g - 1) := by
        rw [get_credit_eq _ f1, f3]
      have hcn : get_credit_from_gid (split_credits_for_gid g).2 =
          2 ^ (get_log2credit_from_gid g - 1) := by
        rw [get_credit_eq _ n1, n3]
      have hcg : get_credit_from_gid g = 2 ^ get_log2credit_from_gid g :=
        get_credit_eq g hg
      rw [hp1, hp2, hp3, hp4]
      simp only [thread_credit, thread_inflight, thread_started]
      refine ⟨f1, ?_, ?_, by omega, fun a ha => Or.inl ha⟩
      · rw [hcs]
        have h21 : (2 : Nat) = 2 ^ 1 := by norm_num
        rw [h21]
        exact Nat.pow_le_pow_right (by norm_num) (by omega)
      · have hsplit : (2 : Int) ^ (get_log2credit_from_gid g - 1) +
            2 ^ (get_log2credit_from_gid g - 1) =
            2 ^ get_log2credit_from_gid g := by
          conv_rhs => rw [show get_log2credit_from_gid g =
            (get_log2credit_from_gid g - 1) + 1 from by omega]
          rw [pow_succ]
          ring
        rw [hcs, hcn, hcg]
        push_cast
        rw [← hsplit]
        ring

theorem race_step_inv (s : race_state) (w : Bool) (h : race_inv s) :
    race_inv (race_step s w) := by
  obtain ⟨h1, h2, h3, h4, h5⟩ := h
  cases w
  · obtain ⟨a1, a2, a3, a4, a5⟩ :=
      thread_step_inv s.gid s.t1 s.increfs s.decrefs h1 h2
    have e : race_step s false =
        ⟨(thread_step s.gid s.t1 s.increfs s.decrefs).1,
          (thread_step s.gid s.t1 s.increfs s.decrefs).2.1, s.t2,
          (thread_step s.gid s.t1 s.increfs s.decrefs).2.2.1,
          (thread_step s.gid s.t1 s.increfs s.decrefs).2.2.2⟩ := by
      simp [race_step]
    rw [e]
    simp only [race_inv]
    refine ⟨a1, a2, by linarith, by omega, ?_⟩
    intro a ha
    rcases a5 a ha with hmem | heq
    · exact h5 a hmem
    · exact heq
  · obtain ⟨a1, a2, a3, a4, a5⟩ :=
      thread_step_inv s.gid s.t2 s.increfs s.decrefs h1 h2
    have e : race_step s true =
        ⟨(thread_step s.gid s.t2 s.increfs s.decrefs).1, s.t1,
          (thread_step s.gid s.t2 s.increfs s.decrefs).2.1,
          (thread_step s.gid s.t2 s.increfs s.decrefs).2.2.1,
          (thread_step s.gid s.t2 s.increfs s.decrefs).2.2.2⟩ := by
      simp [race_step]
    rw [e]
    simp only [race_inv]
    refine ⟨a1, a2, by linarith, by omega, ?_⟩
    intro a ha
    rcases a5 a ha with hmem | heq
    · exact h5 a hmem
    · exact heq

theorem run_race_inv (g0 : gid_type) (sched : List Bool)
    (h1 : has_credits g0 = true) (h2 : get_log2credit_from_gid g0 = 1) :
    race_inv (run_race g0 sched) := by
  have hc2 : get_credit_from_gid g0 = 2 := by
    rw [get_credit_eq g0 h1, h2]
    norm_num
  have hinit : race_inv ⟨g0, .initial, .initial, [], []⟩ := by
    simp only [race_inv]
    refine ⟨h1, by omega, ?_, by simp [thread_started], by simp⟩
    simp [thread_credit, thread_inflight, hc2]
  have hall : ∀ (l : List Bool) (s : race_state),
      race_inv s → race_inv (l.foldl race_step s) := by
    intro l
    induction l with
    | nil => exact fun s hs => hs
    | cons b bs ih => exact fun s hs => ih _ (race_step_inv s b hs)
  exact hall sched _ hinit

theorem testBit_msb_set_log2credit_bit30 (g : gid_type) (k : Nat) :
    (set_log2credit_for_gid g k).id_msb.testBit 30 = true := by
  simp [set_log2credit_for_gid, Nat.testBit_or, testBit_has_credits_mask]

theorem testBit_msb_strip_lock_29 (g : gid_type) :
    (strip_lock_bit g).id_msb.testBit 29 = false := by
  have h := is_locked_strip_lock g
  rw [is_locked_eq_testBit] at h
  exact h

/-! ## The claims -/

/-- C1: for every identifier `g` with `has_credit` set and
`log2_credit = k > 1` (and the embedded spinlock free, since the split
acquires it), one local split (`split_credits_for_gid`) leaves both the
source and the returned identifier with `log2_credit = k - 1` — so the
total credit `2 ^ k` is unchanged — sets `was_split` on both, and copies
every bit of `g` outside the credit field and split flag into the returned
identifier. -/
theorem claim_C1_local_split (g : gid_type) (k : Nat)
    (hl : is_locked g = false) (hc : has_credits g = true)
    (hk : get_log2credit_from_gid g = k) (hk1 : 1 < k) :
    get_log2credit_from_gid (split_credits_for_gid g).1 = k - 1 ∧
    get_log2credit_from_gid (split_credits_for_gid g).2 = k - 1 ∧
    gid_was_split (split_credits_for_gid g).1 = true ∧
    gid_was_split (split_credits_for_gid g).2 = true ∧
    get_credit_from_gid (split_credits_for_gid g).1 +
      get_credit_from_gid (split_credits_for_gid g).2 = 2 ^ k ∧
    (split_credits_for_gid g).2.id_lsb = g.id_lsb ∧
    (∀ i, i < 64 → ¬ (24 ≤ i ∧ i < 29) → i ≠ 31 →
      (split_credits_for_gid g).2.id_msb.testBit i =
        g.id_msb.testBit i) := by
  obtain ⟨f1, f2, f3⟩ := split_credits_src_fields g
  obtain ⟨n1, n2, n3⟩ := split_credits_new_fields g
  have hkm : k - 1 + 1 = k := by omega
  refine ⟨by rw [f3, hk], by rw [n3, hk], f2, n2, ?_, ?_, ?_⟩
  · rw [get_credit_eq _ f1, get_credit_eq _ n1, f3, n3, hk]
    calc 2 ^ (k - 1) + 2 ^ (k - 1) = 2 ^ (k - 1) * 2 := by ring
      _ = 2 ^ (k - 1 + 1) := (pow_succ 2 (k - 1)).symm
      _ = 2 ^ k := by rw [hkm]
  · rw [split_credits_for_gid_eq]
    rfl
  · intro i hi hwin h31
    rw [split_credits_for_gid_eq]
    by_cases h30 : i = 30
    · subst h30
      rw [testBit_msb_set_split _ _ (by omega),
        testBit_msb_set_log2credit_bit30]
      have := has_credits_eq_testBit g
      rw [hc] at this
      exact this
    · by_cases h29 : i = 29
      · subst h29
        rw [testBit_msb_set_split _ _ (by omega),
          testBit_msb_set_log2credit _ _ _ (by omega) (by omega) (by omega),
          testBit_msb_strip_lock_29]
        have := is_locked_eq_testBit g
        rw [hl] at this
        exact this
      · rw [testBit_msb_set_split _ _ (by omega),
          testBit_msb_set_log2credit _ _ _ hwin (by omega) hi,
          testBit_msb_strip_lock _ _ (by omega) hi,
          testBit_msb_acquire _ _ (by omega)]

theorem claim_C1_witness :
    is_locked (⟨0x42000000, 7⟩ : gid_type) = false ∧
    has_credits (⟨0x42000000, 7⟩ : gid_type) = true ∧
    get_log2credit_from_gid (⟨0x42000000, 7⟩ : gid_type) = 2 ∧ 1 < 2 ∧
    (get_log2credit_from_gid
        (split_credits_for_gid ⟨0x42000000, 7⟩).1 = 2 - 1 ∧
      get_log2credit_from_gid
        (split_credits_for_gid ⟨0x42000000, 7⟩).2 = 2 - 1 ∧
      gid_was_split (split_credits_for_gid ⟨0x42000000, 7⟩).1 = true ∧
      gid_was_split (split_credits_for_gid ⟨0x42000000, 7⟩).2 = true ∧
      get_credit_from_gid (split_credits_for_gid ⟨0x42000000, 7⟩).1 +
        get_credit_from_gid (split_credits_for_gid ⟨0x42000000, 7⟩).2 =
          2 ^ 2 ∧
      (split_credits_for_gid ⟨0x42000000, 7⟩).2.id_lsb =
        (⟨0x42000000, 7⟩ : gid_type).id_lsb ∧
      (∀ i, i < 64 → ¬ (24 ≤ i ∧ i < 29) → i ≠ 31 →
        (split_credits_for_gid ⟨0x42000000, 7⟩).2.id_msb.testBit i =
          (⟨0x42000000, 7⟩ : gid_type).id_msb.testBit i)) :=
  ⟨by decide, by decide, by decide, by decide,
    claim_C1_local_split ⟨0x42000000, 7⟩ 2 (by decide) (by decide)
      (by decide) (by decide)⟩

/-- C2: for an identifier with credits and `log2_credit = 1`, the split
marks the source as split and hands back exactly one pending `incref` of
`2 * (C0 - 1)` credits against the (lock-stripped) marked source; its
completion (`postprocess_incref`) gives the handed-off identifier credit
`C0` with `was_split` set, rewrites the source credit to
`min(C0, c_src + (C0 - 2))` from the re-read source credit
`c_src ≥ 2`, and issues the surplus decref against the new gid (after the
lock is released) iff `c_src + (C0 - 2) > C0`, the surplus being
`c_src + (C0 - 2) - C0`. -/
theorem claim_C2_exhausted_split (g : gid_type)
    (hc : has_credits g = true) (h1 : get_log2credit_from_gid g = 1) :
    ((split_gid_if_needed g).2 =
      .pending
        (strip_lock_bit (set_credit_split_mask_for_gid (acquire_lock g)))
        (2 * ((HPX_GLOBALCREDIT_INITIAL : Int) - 1)) ∧
      gid_was_split (split_gid_if_needed g).1 = true) ∧
    (∀ g2, has_credits g2 = true → gid_was_split g2 = true →
      2 ≤ get_credit_from_gid g2 →
      get_credit_from_gid (postprocess_incref g2).2.1 =
        HPX_GLOBALCREDIT_INITIAL ∧
      gid_was_split (postprocess_incref g2).2.1 = true ∧
      (get_credit_from_gid (postprocess_incref g2).1 : Int) =
        min ((HPX_GLOBALCREDIT_INITIAL : Int))
          ((get_credit_from_gid g2 : Int) +
            ((HPX_GLOBALCREDIT_INITIAL : Int) - 2)) ∧
      (0 < (postprocess_incref g2).2.2 ↔
        (HPX_GLOBALCREDIT_INITIAL : Int) <
          (get_credit_from_gid g2 : Int) +
            ((HPX_GLOBALCREDIT_INITIAL : Int) - 2)) ∧
      (postprocess_incref g2).2.2 =
        (get_credit_from_gid g2 : Int) +
          ((HPX_GLOBALCREDIT_INITIAL : Int) - 2) -
          (HPX_GLOBALCREDIT_INITIAL : Int)) := by
  constructor
  · have hB := split_gid_if_needed_caseB g hc h1
    constructor
    · rw [hB]
    · rw [hB]
      simp only [release_lock, was_split_strip_lock]
      exact was_split_set_split _
  · intro g2 hc2 hw2 hcr2
    obtain ⟨hn1, hn2, hn3, hs1, hs2, hs3, hovf⟩ :=
      postprocess_incref_spec g2 hc2 hcr2
    have hcast : (2 : Int) ≤ (get_credit_from_gid g2 : Int) := by
      exact_mod_cast hcr2
    refine ⟨hn1, hn2, ?_, ?_, ?_⟩
    · rw [hs1]
      omega
    · rw [hovf]
      omega
    · rw [hovf]
      ring

theorem claim_C2_witness :
    has_credits (⟨0x41000000, 9⟩ : gid_type) = true ∧
    get_log2credit_from_gid (⟨0x41000000, 9⟩ : gid_type) = 1 ∧
    (((split_gid_if_needed ⟨0x41000000, 9⟩).2 =
      .pending
        (strip_lock_bit (set_credit_split_mask_for_gid
          (acquire_lock ⟨0x41000000, 9⟩)))
        (2 * ((HPX_GLOBALCREDIT_INITIAL : Int) - 1)) ∧
      gid_was_split (split_gid_if_needed ⟨0x41000000, 9⟩).1 = true) ∧
    (∀ g2, has_credits g2 = true → gid_was_split g2 = true →
      2 ≤ get_credit_from_gid g2 →
      get_credit_from_gid (postprocess_incref g2).2.1 =
        HPX_GLOBALCREDIT_INITIAL ∧
      gid_was_split (postprocess_incref g2).2.1 = true ∧
      (get_credit_from_gid (postprocess_incref g2).1 : Int) =
        min ((HPX_GLOBALCREDIT_INITIAL : Int))
          ((get_credit_from_gid g2 : Int) +
            ((HPX_GLOBALCREDIT_INITIAL : Int) - 2)) ∧
      (0 < (postprocess_incref g2).2.2 ↔
        (HPX_GLOBALCREDIT_INITIAL : Int) <
          (get_credit_from_gid g2 : Int) +
            ((HPX_GLOBALCREDIT_INITIAL : Int) - 2)) ∧
      (postprocess_incref g2).2.2 =
        (get_credit_from_gid g2 : Int) +
          ((HPX_GLOBALCREDIT_INITIAL : Int) - 2) -
          (HPX_GLOBALCREDIT_INITIAL : Int))) :=
  ⟨by decide, by decide,
    claim_C2_exhausted_split ⟨0x41000000, 9⟩ (by decide) (by decide)⟩

/-- C3 counterexample: with the runtime up, a local never-split target and
`destroy_component` throwing `invalid_status` while the thread manager is
not stopping, the error propagates out of `decrement_refcnt` before the
final `delete p`, so the local record is not freed — contradicting the
claim that the local record is freed in every case. -/
theorem claim_C3_counterexample :
    gid_managed_deleter ⟨true, true, false, some .invalid_status, false⟩
        ⟨0x41000000, 3⟩ =
      ⟨[], 1, 0, false, some .invalid_status⟩ := by decide

/-- C3 (amended): when the last local reference to a managed handle with
credits is dropped while the runtime is up: if `was_split` is set or the
address cache cannot resolve the identifier, exactly one fire-and-forget
decref of the full (nonzero) credit is issued, errors from it swallowed
and logged; otherwise `destroy_component` is called, an `invalid_status`
error being swallowed iff the thread manager is stopping and any other
error propagating — in which case, unlike the original claim, the local
record is not freed; on every non-propagating path it is freed. -/
theorem claim_C3_managed_drop (env : deleter_env) (g : gid_type)
    (hup : env.runtime_up = true) (hc : has_credits g = true) :
    (gid_was_split g = true ∨ env.resolve_ok = false →
      gid_managed_deleter env g =
        ⟨[get_credit_from_gid g], 0,
          if env.decref_throws then 1 else 0, true, none⟩ ∧
      get_credit_from_gid g ≠ 0) ∧
    (gid_was_split g = false → env.resolve_ok = true →
      (env.destroy_throws = none →
        gid_managed_deleter env g = ⟨[], 1, 0, true, none⟩) ∧
      (env.destroy_throws = some .invalid_status → env.tm_stopping = true →
        gid_managed_deleter env g = ⟨[], 1, 0, true, none⟩) ∧
      (∀ e, env.destroy_throws = some e →
        e ≠ .invalid_status ∨ env.tm_stopping = false →
        gid_managed_deleter env g = ⟨[], 1, 0, false, some e⟩)) := by
  have hpos := get_credit_pos g hc
  constructor
  · intro hsplit
    constructor
    · rcases hsplit with hs | hr
      · simp [gid_managed_deleter, decrement_refcnt, hc, hup, hs]
      · simp [gid_managed_deleter, decrement_refcnt, hc, hup, hr]
    · omega
  · intro hs hr
    refine ⟨?_, ?_, ?_⟩
    · intro hd
      simp [gid_managed_deleter, decrement_refcnt, hc, hup, hs, hr, hd]
    · intro hd ht
      simp [gid_managed_deleter, decrement_refcnt, hc, hup, hs, hr, hd, ht]
    · intro e hd he
      rcases he with he | ht
      · simp [gid_managed_deleter, decrement_refcnt, hc, hup, hs, hr, hd, he]
      · simp [gid_managed_deleter, decrement_refcnt, hc, hup, hs, hr, hd, ht]

theorem claim_C3_witness :
    (⟨true, false, false, none, false⟩ : deleter_env).runtime_up = true ∧
    has_credits (⟨0xc1000000, 3⟩ : gid_type) = true ∧
    ((gid_was_split (⟨0xc1000000, 3⟩ : gid_type) = true ∨
        (⟨true, false, false, none, false⟩ : deleter_env).resolve_ok =
          false →
      gid_managed_deleter ⟨true, false, false, none, false⟩
          ⟨0xc1000000, 3⟩ =
        ⟨[get_credit_from_gid ⟨0xc1000000, 3⟩], 0,
          if (⟨true, false, false, none, false⟩ :
            deleter_env).decref_throws then 1 else 0, true, none⟩ ∧
      get_credit_from_gid (⟨0xc1000000, 3⟩ : gid_type) ≠ 0) ∧
    (gid_was_split (⟨0xc1000000, 3⟩ : gid_type) = false →
      (⟨true, false, false, none, false⟩ : deleter_env).resolve_ok =
        true →
      ((⟨true, false, false, none, false⟩ :
          deleter_env).destroy_throws = none →
        gid_managed_deleter ⟨true, false, false, none, false⟩
          ⟨0xc1000000, 3⟩ = ⟨[], 1, 0, true, none⟩) ∧
      ((⟨true, false, false, none, false⟩ :
          deleter_env).destroy_throws = some .invalid_status →
        (⟨true, false, false, none, false⟩ :
          deleter_env).tm_stopping = true →
        gid_managed_deleter ⟨true, false, false, none, false⟩
          ⟨0xc1000000, 3⟩ = ⟨[], 1, 0, true, none⟩) ∧
      (∀ e, (⟨true, false, false, none, false⟩ :
          deleter_env).destroy_throws = some e →
        e ≠ .invalid_status ∨ (⟨true, false, false, none, false⟩ :
          deleter_env).tm_stopping = false →
        gid_managed_deleter ⟨true, false, false, none, false⟩
          ⟨0xc1000000, 3⟩ = ⟨[], 1, 0, false, some e⟩))) :=
  ⟨by decide, by decide,
    claim_C3_managed_drop ⟨true, false, false, none, false⟩
      ⟨0xc1000000, 3⟩ (by decide) (by decide)⟩

/-- C4 counterexample: two threads both split the same handle from
`log2_credit = 1`; in the interleaving where both pass the credit check
before either `incref` completes, each issues its own `incref` — two in
total, not exactly one — and the quiescent total credit plus decref'd
overflow is `4 * C0 - 2`, not `2 * C0`. -/
theorem claim_C4_counterexample :
    (run_race ⟨0x41000000, 11⟩ [false, true, false, true]).increfs.length
        = 2 ∧
    (get_credit_from_gid
        (run_race ⟨0x41000000, 11⟩ [false, true, false, true]).gid : Int) +
      (thread_credit
        (run_race ⟨0x41000000, 11⟩ [false, true, false, true]).t1 : Int) +
      (thread_credit
        (run_race ⟨0x41000000, 11⟩ [false, true, false, true]).t2 : Int) +
      (run_race ⟨0x41000000, 11⟩ [false, true, false, true]).decrefs.sum =
      4 * (HPX_GLOBALCREDIT_INITIAL : Int) - 2 ∧
    4 * (HPX_GLOBALCREDIT_INITIAL : Int) - 2 ≠
      2 * (HPX_GLOBALCREDIT_INITIAL : Int) := by decide

/-- C4 (amended): in the two-splitter race from `log2_credit = 1`, under
every interleaving, at quiescence (both threads finished) the total credit
across the three resulting handles plus all decref'd overflow equals the
initial credit 2 plus everything incref'd — conservation; each incref
carries the Case-B amount `2 * (C0 - 1)` and at most two are issued (two
when the splits interleave, one when they are serialized, in which case
the quiescent total is `2 * C0`). -/
theorem claim_C4_race_conservation (g0 : gid_type) (sched : List Bool)
    (h1 : has_credits g0 = true) (h2 : get_log2credit_from_gid g0 = 1) :
    (∀ ga gb, (run_race g0 sched).t1 = .finished ga →
      (run_race g0 sched).t2 = .finished gb →
      (get_credit_from_gid (run_race g0 sched).gid : Int) +
        (get_credit_from_gid ga : Int) + (get_credit_from_gid gb : Int) +
        (run_race g0 sched).decrefs.sum =
      2 + (run_race g0 sched).increfs.sum) ∧
    (run_race g0 sched).increfs.length ≤ 2 ∧
    (∀ a ∈ (run_race g0 sched).increfs,
      a = 2 * ((HPX_GLOBALCREDIT_INITIAL : Int) - 1)) := by
  obtain ⟨i1, i2, i3, i4, i5⟩ := run_race_inv g0 sched h1 h2
  have hstarted : ∀ t : thread_state, thread_started t ≤ 1 := by
    intro t
    cases t <;> simp [thread_started]
  refine ⟨?_, ?_, i5⟩
  · intro ga gb hta htb
    rw [hta, htb] at i3
    simp only [thread_credit, thread_inflight] at i3
    linarith
  · have ha := hstarted (run_race g0 sched).t1
    have hb := hstarted (run_race g0 sched).t2
    omega

theorem claim_C4_witness :
    has_credits (⟨0x41000000, 11⟩ : gid_type) = true ∧
    get_log2credit_from_gid (⟨0x41000000, 11⟩ : gid_type) = 1 ∧
    ((∀ ga gb,
      (run_race ⟨0x41000000, 11⟩ [false, false, true]).t1 =
        .finished ga →
      (run_race ⟨0x41000000, 11⟩ [false, false, true]).t2 =
        .finished gb →
      (get_credit_from_gid
          (run_race ⟨0x41000000, 11⟩ [false, false, true]).gid : Int) +
        (get_credit_from_gid ga : Int) + (get_credit_from_gid gb : Int) +
        (run_race ⟨0x41000000, 11⟩ [false, false, true]).decrefs.sum =
      2 + (run_race ⟨0x41000000, 11⟩ [false, false, true]).increfs.sum) ∧
    (run_race ⟨0x41000000, 11⟩ [false, false, true]).increfs.length ≤ 2 ∧
    (∀ a ∈ (run_race ⟨0x41000000, 11⟩ [false, false, true]).increfs,
      a = 2 * ((HPX_GLOBALCREDIT_INITIAL : Int) - 1))) :=
  ⟨by decide, by decide,
    claim_C4_race_conservation ⟨0x41000000, 11⟩ [false, false, true]
      (by decide) (by decide)⟩

/-- C5: saving a `managed_move_credit` handle (outside check-pointing)
writes a record tagged `managed` whose gid is the pre-strip value returned
by `move_gid` and so carries all of the source's remaining credit, while
the source identifier is left with `has_credits` false, making a later
drop through the managed deleter a local free with no address-service
traffic. -/
theorem claim_C5_move_credit_save (h : id_type_impl)
    (ht : h.type_ = managed_move_credit) (hc : has_credits h.gid = true)
    (tbl : gid_type → Option gid_type) :
    id_type_impl_save h false tbl =
      .ok (⟨(move_gid h.gid).2, managed⟩, ⟨(move_gid h.gid).1, h.type_⟩) ∧
    get_credit_from_gid (move_gid h.gid).2 = get_credit_from_gid h.gid ∧
    has_credits (move_gid h.gid).1 = false ∧
    (∀ env, gid_managed_deleter env (move_gid h.gid).1 =
      ⟨[], 0, 0, true, none⟩) := by
  have hmove1 : (move_gid h.gid).1 =
      release_lock (strip_credits_from_gid (acquire_lock h.gid)) := by
    have hca : has_credits (acquire_lock h.gid) = true := by
      rw [has_credits_acquire]
      exact hc
    simp [move_gid, move_gid_locked, hca]
  have hmove2 : (move_gid h.gid).2 = strip_lock_bit (acquire_lock h.gid) := by
    simp [move_gid, move_gid_locked]
  have hnocred : has_credits (move_gid h.gid).1 = false := by
    rw [hmove1]
    simp only [release_lock, has_credits_strip_lock]
    exact has_credits_strip_credits _
  refine ⟨?_, ?_, hnocred, ?_⟩
  · simp [id_type_impl_save, ht, managed_move_credit, unmanaged, managed]
  · rw [hmove2, get_credit_strip_lock, get_credit_acquire]
  · intro env
    simp [gid_managed_deleter, hnocred]

theorem claim_C5_witness :
    (⟨⟨0x44000000, 13⟩, 2⟩ : id_type_impl).type_ = managed_move_credit ∧
    has_credits (⟨⟨0x44000000, 13⟩, 2⟩ : id_type_impl).gid = true ∧
    (id_type_impl_save ⟨⟨0x44000000, 13⟩, 2⟩ false (fun _ => none) =
      .ok (⟨(move_gid (⟨0x44000000, 13⟩ : gid_type)).2, managed⟩,
        ⟨(move_gid (⟨0x44000000, 13⟩ : gid_type)).1,
          (⟨⟨0x44000000, 13⟩, 2⟩ : id_type_impl).type_⟩) ∧
    get_credit_from_gid (move_gid (⟨0x44000000, 13⟩ : gid_type)).2 =
      get_credit_from_gid (⟨0x44000000, 13⟩ : gid_type) ∧
    has_credits (move_gid (⟨0x44000000, 13⟩ : gid_type)).1 = false ∧
    (∀ env, gid_managed_deleter env
        (move_gid (⟨0x44000000, 13⟩ : gid_type)).1 =
      ⟨[], 0, 0, true, none⟩)) :=
  ⟨by decide, by decide,
    claim_C5_move_credit_save ⟨⟨0x44000000, 13⟩, 2⟩ (by decide) (by decide)
      (fun _ => none)⟩

/-- C6: serializing a handle whose management is not `unmanaged` into a
check-pointing archive fails with `invalid_status` in the preprocessing
pass, before any gid-table entry is created (the result does not depend on
the table state), before any split is requested and before any
address-service call; `unmanaged` handles serialize into such an archive
without error in both passes. -/
theorem claim_C6_checkpoint (h : id_type_impl) (table_has : Bool)
    (tbl : gid_type → Option gid_type) :
    (h.type_ ≠ unmanaged →
      preprocess_gid h true table_has = .error .invalid_status ∧
      id_type_impl_save_preprocessing h true table_has =
        .error .invalid_status ∧
      id_type_impl_save h true tbl = .error .invalid_status) ∧
    (h.type_ = unmanaged →
      preprocess_gid h true table_has = .ok .no_action ∧
      id_type_impl_save_preprocessing h true table_has =
        .ok (.no_action, ⟨h.gid, h.type_⟩) ∧
      id_type_impl_save h true tbl = .ok (⟨h.gid, h.type_⟩, h)) := by
  constructor
  · intro hne
    have hpre : preprocess_gid h true table_has = .error .invalid_status := by
      simp [preprocess_gid, hne]
    refine ⟨hpre, ?_, ?_⟩
    · simp [id_type_impl_save_preprocessing, hpre]
    · simp [id_type_impl_save, hne]
  · intro he
    have hpre : preprocess_gid h true table_has = .ok .no_action := by
      simp [preprocess_gid, he]
    refine ⟨hpre, ?_, ?_⟩
    · simp [id_type_impl_save_preprocessing, hpre]
    · simp [id_type_impl_save, he]

theorem claim_C6_witness :
    (⟨⟨0x41000000, 21⟩, 1⟩ : id_type_impl).type_ ≠ unmanaged ∧
    (⟨⟨7, 21⟩, 0⟩ : id_type_impl).type_ = unmanaged ∧
    (preprocess_gid ⟨⟨0x41000000, 21⟩, 1⟩ true true =
        .error .invalid_status ∧
      id_type_impl_save_preprocessing ⟨⟨0x41000000, 21⟩, 1⟩ true true =
        .error .invalid_status ∧
      id_type_impl_save ⟨⟨0x41000000, 21⟩, 1⟩ true (fun _ => none) =
        .error .invalid_status) ∧
    (preprocess_gid ⟨⟨7, 21⟩, 0⟩ true false = .ok .no_action ∧
      id_type_impl_save_preprocessing ⟨⟨7, 21⟩, 0⟩ true false =
        .ok (.no_action, ⟨⟨7, 21⟩, 0⟩) ∧
      id_type_impl_save ⟨⟨7, 21⟩, 0⟩ true (fun _ => none) =
        .ok (⟨⟨7, 21⟩, 0⟩, ⟨⟨7, 21⟩, 0⟩)) :=
  ⟨by decide, by decide,
    (claim_C6_checkpoint ⟨⟨0x41000000, 21⟩, 1⟩ true (fun _ => none)).1
      (by decide),
    (claim_C6_checkpoint ⟨⟨7, 21⟩, 0⟩ false (fun _ => none)).2
      (by decide)⟩

/-- C7: loading a serialized handle reads a `{gid, management}` record;
any management value other than `unmanaged` or `managed` raises
`version_too_new`, and the lock bit of the incoming gid is cleared
(by `gid_type::load`) before the handle is constructed with the given
management. -/
theorem claim_C7_load (msb lsb : Nat) (t : Int) :
    (t ≠ unmanaged → t ≠ managed →
      id_type_load_wire msb lsb t = .error .version_too_new) ∧
    (∀ h, id_type_load_wire msb lsb t = .ok h →
      (t = unmanaged ∨ t = managed) ∧ h.type_ = t ∧
      h.gid = gid_type_load msb lsb ∧ is_locked h.gid = false) := by
  constructor
  · intro h0 h1
    simp [id_type_load_wire, id_type_impl_load, h0, h1]
  · intro h hok
    by_cases hcond : t ≠ unmanaged ∧ t ≠ managed
    · simp [id_type_load_wire, id_type_impl_load, hcond] at hok
    · have hval : t = unmanaged ∨ t = managed := by
        rcases not_and_or.mp hcond with hx | hx
        · exact Or.inl (not_not.mp hx)
        · exact Or.inr (not_not.mp hx)
      simp only [id_type_load_wire, id_type_impl_load, if_neg hcond,
        Except.ok.injEq] at hok
      subst hok
      refine ⟨hval, rfl, rfl, ?_⟩
      exact is_locked_strip_lock _

theorem claim_C7_witness :
    id_type_load_wire 0x20000007 42 5 = .error .version_too_new :=
  (claim_C7_load 0x20000007 42 5).1 (by decide) (by decide)

/-- C8 counterexample: two identifiers with disjoint (here empty) flag
windows whose addition carries into the flag window: the flag window of
the left operand is not preserved by `operator+`, contradicting the
claim's preservation clause. -/
theorem claim_C8_counterexample :
    flag_window ⟨0x00ffffff, 0⟩ = 0 ∧ flag_window ⟨1, 0⟩ = 0 ∧
    flag_window (gid_add ⟨0x00ffffff, 0⟩ ⟨1, 0⟩) = 1 := by decide

/-- C8 (amended): `(a + b) - b = a` holds for all 64-bit-valued
identifiers (not just those with disjoint flag windows); addition carries
one into the msb iff the lsb addition wraps modulo `2 ^ 64`, and
subtraction borrows one from the msb iff `lsb(a) < lsb(b)`; the flag
window of the left operand is preserved only under extra hypotheses — for
instance when the right msb is zero below bit 32 and the lsb addition
does not wrap — not for all operands with disjoint flag windows. -/
theorem claim_C8_arithmetic (a b : gid_type)
    (ha1 : a.id_msb < 2 ^ 64) (ha2 : a.id_lsb < 2 ^ 64)
    (hb1 : b.id_msb < 2 ^ 64) (hb2 : b.id_lsb < 2 ^ 64) :
    gid_sub (gid_add a b) b = a ∧
    (gid_add a b).id_lsb = (a.id_lsb + b.id_lsb) % 2 ^ 64 ∧
    (gid_add a b).id_msb =
      (a.id_msb + b.id_msb +
        (if 2 ^ 64 ≤ a.id_lsb + b.id_lsb then 1 else 0)) % 2 ^ 64 ∧
    (gid_sub a b).id_msb =
      (a.id_msb + (2 ^ 64 - b.id_msb) +
        (if a.id_lsb < b.id_lsb then 2 ^ 64 - 1 else 0)) % 2 ^ 64 ∧
    (b.id_msb % 2 ^ 32 = 0 → a.id_lsb + b.id_lsb < 2 ^ 64 →
      flag_window (gid_add a b) = flag_window a) := by
  obtain ⟨am, al⟩ := a
  obtain ⟨bm, bl⟩ := b
  simp only at ha1 ha2 hb1 hb2
  have h255 : ∀ x : Nat, x &&& 0xff = x % 256 := by
    intro x
    have h8 : (0xff : Nat) = 2 ^ 8 - 1 := by decide
    rw [h8, Nat.and_pow_two_sub_one_eq_mod]
  refine ⟨?_, ?_, ?_, ?_, ?_⟩
  · simp only [gid_add, gid_sub, gid_type.mk.injEq]
    split_ifs <;> constructor <;> omega
  · simp only [gid_add]
  · simp only [gid_add]
    split_ifs <;> omega
  · simp only [gid_sub]
    split_ifs <;> omega
  · intro hb hnw
    simp only at hb hnw
    have hcond : ¬ ((al + bl) % 2 ^ 64 < al ∨ (al + bl) % 2 ^ 64 < bl) := by
      omega
    simp only [gid_add, if_neg hcond, flag_window, h255,
      Nat.shiftRight_eq_div_pow]
    omega

theorem claim_C8_witness :
    gid_sub (gid_add ⟨3, 2 ^ 64 - 1⟩ ⟨0x100000000, 5⟩) ⟨0x100000000, 5⟩ =
      ⟨3, 2 ^ 64 - 1⟩ ∧
    (gid_add ⟨3, 2 ^ 64 - 1⟩ ⟨0x100000000, 5⟩).id_lsb =
      ((2 ^ 64 - 1) + 5) % 2 ^ 64 ∧
    (gid_add ⟨3, 2 ^ 64 - 1⟩ ⟨0x100000000, 5⟩).id_msb =
      (3 + 0x100000000 +
        (if 2 ^ 64 ≤ (2 ^ 64 - 1) + 5 then 1 else 0)) % 2 ^ 64 ∧
    (gid_sub ⟨3, 2 ^ 64 - 1⟩ ⟨0x100000000, 5⟩).id_msb =
      (3 + (2 ^ 64 - 0x100000000) +
        (if (2 ^ 64 - 1 : Nat) < 5 then 2 ^ 64 - 1 else 0)) % 2 ^ 64 ∧
    ((0x100000000 : Nat) % 2 ^ 32 = 0 → (2 ^ 64 - 1) + 5 < 2 ^ 64 →
      flag_window (gid_add ⟨3, 2 ^ 64 - 1⟩ ⟨0x100000000, 5⟩) =
        flag_window ⟨3, 2 ^ 64 - 1⟩) :=
  claim_C8_arithmetic ⟨3, 2 ^ 64 - 1⟩ ⟨0x100000000, 5⟩ (by decide)
    (by decide) (by decide) (by decide)

/-- C9 counterexample: `get_deleter` applied to the out-of-range
management value `3` does not raise `invalid_argument` — it fails only a
debug assertion (second component `false`) and returns the unmanaged
deleter. -/
theorem claim_C9_counterexample :
    get_deleter 3 = (.unmanaged_deleter_fn, false) := by decide

/-- C9 (amended): `get_deleter` installs the unmanaged deleter for
`unmanaged` and the managed deleter for `managed` and
`managed_move_credit`; for any management value outside that set it fails
a debug assertion (`HPX_ASSERT(false)`) and falls back on the unmanaged
deleter instead of raising `invalid_argument`. -/
theorem claim_C9_get_deleter (t : Int) :
    (t = unmanaged → get_deleter t = (.unmanaged_deleter_fn, true)) ∧
    (t = managed ∨ t = managed_move_credit →
      get_deleter t = (.managed_deleter_fn, true)) ∧
    (t ≠ unmanaged → t ≠ managed → t ≠ managed_move_credit →
      get_deleter t = (.unmanaged_deleter_fn, false)) := by
  refine ⟨?_, ?_, ?_⟩
  · intro h0
    simp [get_deleter, h0]
  · intro h1
    have hne : t ≠ unmanaged := by
      rcases h1 with h | h <;> subst h <;> decide
    simp [get_deleter, hne, h1]
  · intro h0 h1 h2
    simp [get_deleter, h0, h1, h2]

theorem claim_C9_witness :
    get_deleter managed = (.managed_deleter_fn, true) :=
  (claim_C9_get_deleter managed).2.1 (Or.inl rfl)

theorem hex16_chars (n : Nat) :
    ∀ c ∈ (hex16 n).data, c ∈ "0123456789abcdef".data := by
  intro c hcmem
  simp only [hex16, String.mk] at hcmem
  rcases List.mem_map.mp hcmem with ⟨i, hi, hc⟩
  subst hc
  have hd : ((n >>> (4 * (15 - i))) &&& 15) < 16 :=
    Nat.lt_succ_of_le Nat.and_le_right
  revert hd
  generalize (n >>> (4 * (15 - i))) &&& 15 = d
  intro hd
  interval_cases d <;> decide

/-- C10: `gid_type::to_string` yields exactly 32 lower-case hexadecimal
characters — the 16 zero-padded msb digits immediately followed by the 16
lsb digits — with no braces, separator, or validity check (even the
invalid identifier renders as 32 zeros); the braced
`\x7b<msb>, <lsb>\x7d` / `\x7binvalid\x7d` rendering is produced by the
stream-insertion operator. -/
theorem claim_C10_to_string (g : gid_type) :
    (gid_to_string g).length = 32 ∧
    gid_to_string g = hex16 g.id_msb ++ hex16 g.id_lsb ∧
    (∀ c ∈ (gid_to_string g).data, c ∈ "0123456789abcdef".data) ∧
    (g ≠ invalid_gid →
      gid_stream_insert g =
        "\x7b" ++ hex16 g.id_msb ++ ", " ++ hex16 g.id_lsb ++ "\x7d") ∧
    gid_stream_insert invalid_gid = "\x7binvalid\x7d" ∧
    gid_to_string invalid_gid = "00000000000000000000000000000000" := by
  refine ⟨?_, rfl, ?_, ?_, by decide, by decide⟩
  · simp [gid_to_string, hex16, String.length]
  · intro c hcmem
    rcases List.mem_append.mp ((String.data_append _ _) ▸ hcmem) with h | h
    · exact hex16_chars g.id_msb c h
    · exact hex16_chars g.id_lsb c h
  · intro hne
    simp [gid_stream_insert, hne]

theorem claim_C10_witness :
    (gid_to_string ⟨1, 2⟩).length = 32 :=
  (claim_C10_to_string ⟨1, 2⟩).1

end HpxNaming

